import Mathlib

/-!
Verification of the data aggregation and presentation layer of the
Seperlima library dashboard (`src/app.py`, `src/charts.py`, `src/db.py`).

The embedding models a pandas `DataFrame` of loan records
(`load_peminjaman_detail` in `db.py`) as a `List Row` whose fields follow
the SQL select list.  Date-valued cells are modelled as a calendar
timestamp (year, month, day, seconds within the day) compared
lexicographically, so `.dt.date` is projection to the first three
components and `.dt.to_period("M")` is projection to year and month.

pandas conventions reflected in the model:
* `groupby(col)` with the default `sort=True` emits one group per distinct
  non-null key, in ascending key order; null keys are dropped.
* `sort_values` is modelled by an insertion sort.  The pandas default
  `kind='quicksort'` is documented as not stable, so the order among
  tied elements is implementation-defined; accordingly, the theorems
  about sorted output assert only the ordering of the sort key and
  permutation of the input, which any correct sort guarantees.  Only
  the two-element tied counterexample input observes the model's tie
  order, and there numpy (which insertion-sorts below its small-array
  cutoff) behaves identically.
* `df[col]` on a missing column raises `KeyError`; functions that perform
  such an access on an untyped frame are modelled with `Except`.
* float arithmetic (`mean`) is modelled exactly in `ℚ`.
-/

/- ================================================================
   Dates and loan rows
   ================================================================ -/

/-- A stored loan timestamp: calendar date plus a time-of-day component
(seconds within the day), compared lexicographically.  The `s` field is
the "finer-grained stored time" that day-granularity comparison ignores. -/
structure Timestamp where
  y : Nat
  m : Nat
  d : Nat
  s : Nat
  deriving DecidableEq

/-- A calendar date at day granularity, the result of `.dt.date`. -/
structure DateT where
  y : Nat
  m : Nat
  d : Nat
  deriving DecidableEq

/-- `.dt.date`: drop the time-of-day component. -/
def Timestamp.dateOf (t : Timestamp) : DateT := ⟨t.y, t.m, t.d⟩

/-- Lexicographic order on day-granularity dates (python `date` order). -/
def DateT.dle (a b : DateT) : Prop :=
  a.y < b.y ∨ (a.y = b.y ∧ (a.m < b.m ∨ (a.m = b.m ∧ a.d ≤ b.d)))

instance (a b : DateT) : Decidable (DateT.dle a b) := by
  unfold DateT.dle
  exact inferInstance

/-- Lexicographic order on full timestamps (pandas datetime order). -/
def Timestamp.tle (a b : Timestamp) : Prop :=
  a.y < b.y ∨ (a.y = b.y ∧ (a.m < b.m ∨ (a.m = b.m ∧
    (a.d < b.d ∨ (a.d = b.d ∧ a.s ≤ b.s)))))

instance (a b : Timestamp) : Decidable (Timestamp.tle a b) := by
  unfold Timestamp.tle
  exact inferInstance

/-- One row of the loan-detail table produced by `load_peminjaman_detail`
(`db.py`): the SQL select list, in order.  `status_peminjaman` is computed
by the `CASE WHEN tgl_kembali IS NULL` expression and is therefore never
null; `nama_prodi`, `jenjang` and `nama_fakultas` come from `LEFT JOIN`s
and are nullable, as are `tgl_kembali` and `durasi_peminjaman`. -/
structure Row where
  id_peminjaman : Int
  tgl_pinjam : Timestamp
  tgl_kembali : Option Timestamp
  durasi_peminjaman : Option Int
  denda_buku : Int
  status_peminjaman : String
  id_anggota : Int
  no_identitas : String
  status_anggota : String
  nama_anggota : String
  email : String
  nama_prodi : Option String
  jenjang : Option String
  nama_fakultas : Option String
  id_buku : Int
  judul : String
  kategori_buku : String
  tahun_terbit : Int
  isbn : String
  status_buku : String
  eksemplar : Int
  id_petugas : Int
  nama_petugas : String
  deriving DecidableEq

/- ================================================================
   Stable sorting (model of `sort_values` and of sorted `groupby` keys)
   ================================================================ -/

/-- Insert `a` into `l` in front of the first element `b` with `le a b`. -/
def insortBy (le : α → α → Bool) (a : α) : List α → List α
  | [] => [a]
  | b :: l => if le a b then a :: b :: l else b :: insortBy le a l

/-- Insertion sort: the model of `pandas.sort_values`.  Theorems about
its output rely only on sort-key ordering and permutation, since the
pandas default quicksort leaves tie order unspecified. -/
def sortBy (le : α → α → Bool) : List α → List α
  | [] => []
  | a :: l => insortBy le a (sortBy le l)

/- ================================================================
   Filter Composer (`app.py`, Peminjaman page, lines 297-341)
   ================================================================ -/

/-- The filter configuration built from the sidebar widgets: an inclusive
date range on `tgl_pinjam` plus five per-column selections, each either
the wildcard sentinel `"(Semua)"` or an exact value. -/
structure FilterCfg where
  start_date : DateT
  end_date : DateT
  fakultas_pilih : String
  prodi_pilih : String
  status_anggota_pilih : String
  status_peminjaman_pilih : String
  kategori_pilih : String

/-- What `st.date_input` hands back: a single date when the user has
picked one day, otherwise a `(start, end)` pair. -/
inductive DateRangeInput where
  | single (d : DateT)
  | range (s e : DateT)

/-- `app.py` lines 307-310: a tuple is unpacked, a single date becomes
`start_date = end_date = date_range`. -/
def resolveRange : DateRangeInput → DateT × DateT
  | DateRangeInput.single d => (d, d)
  | DateRangeInput.range s e => (s, e)

/-- Install a resolved date range into a filter configuration. -/
def withRange (cfg : FilterCfg) (p : DateT × DateT) : FilterCfg :=
  { cfg with start_date := p.1, end_date := p.2 }

/-- One `if sel != "(Semua)": df = df[df[col] == sel]` step of `app.py`. -/
def selFilter (sel : String) (get : Row → Option String) (l : List Row) : List Row :=
  if sel ≠ "(Semua)" then l.filter (fun r => get r == some sel) else l

/-- The date-range mask
`(df["tgl_pinjam"].dt.date >= start_date) & (df["tgl_pinjam"].dt.date <= end_date)`. -/
def inDateRange (cfg : FilterCfg) (r : Row) : Bool :=
  decide (DateT.dle cfg.start_date r.tgl_pinjam.dateOf) &&
    decide (DateT.dle r.tgl_pinjam.dateOf cfg.end_date)

/-- Timestamp-descending comparison used by
`df_filtered.sort_values("tgl_pinjam", ascending=False)`. -/
def tsDescLe (a b : Row) : Bool :=
  decide (Timestamp.tle b.tgl_pinjam a.tgl_pinjam)

/-- The Filter Composer of the Peminjaman page (`app.py` lines 325-341):
date-range mask, the five conditional equality filters, then re-sort by
loan date descending. -/
def df_filtered (df : List Row) (cfg : FilterCfg) : List Row :=
  let s1 := df.filter (inDateRange cfg)
  let s2 := selFilter cfg.fakultas_pilih (fun r => r.nama_fakultas) s1
  let s3 := selFilter cfg.prodi_pilih (fun r => r.nama_prodi) s2
  let s4 := selFilter cfg.status_anggota_pilih (fun r => some r.status_anggota) s3
  let s5 := selFilter cfg.status_peminjaman_pilih (fun r => some r.status_peminjaman) s4
  let s6 := selFilter cfg.kategori_pilih (fun r => some r.kategori_buku) s5
  sortBy tsDescLe s6

/-- Specification-side selection predicate: a selection matches when it
is the wildcard or the cell equals the selected value exactly. -/
def selMatch (sel : String) (v : Option String) : Bool :=
  sel == "(Semua)" || v == some sel

/-- Conjunction of the date-range test and all five selection tests. -/
def rowPred (cfg : FilterCfg) (r : Row) : Bool :=
  inDateRange cfg r &&
  selMatch cfg.fakultas_pilih r.nama_fakultas &&
  selMatch cfg.prodi_pilih r.nama_prodi &&
  selMatch cfg.status_anggota_pilih (some r.status_anggota) &&
  selMatch cfg.status_peminjaman_pilih (some r.status_peminjaman) &&
  selMatch cfg.kategori_pilih (some r.kategori_buku)

/- ================================================================
   Aggregation layer (`charts.py`): groupby / count / mean / top-N
   ================================================================ -/

/-- Lexicographic comparison of character lists by code point, the order
python uses on strings. -/
def charsLe : List Char → List Char → Bool
  | [], _ => true
  | _ :: _, [] => false
  | a :: as, b :: bs => if a < b then true else if a = b then charsLe as bs else false

/-- Ascending string comparison (code-point lexicographic), used for
sorted `groupby` keys. -/
def strAsc (a b : String) : Bool := charsLe a.data b.data

/-- Strict string comparison: `strAsc` but not equal. -/
def strLt (a b : String) : Bool := strAsc a b && !(a == b)

/-- Descending-by-count comparison on `(label, count)` pairs:
`sort_values("jumlah", ascending=False)`. -/
def cntDesc (a b : String × Nat) : Bool := decide (b.2 ≤ a.2)

/-- `df.groupby(col).size().reset_index(name="jumlah")` for a possibly
nullable column selected by `key`: one `(label, count)` pair per distinct
non-null key, in ascending key order (pandas drops null group keys and
sorts the groups). -/
def countByKey (key : Row → Option String) (df : List Row) : List (String × Nat) :=
  let ks := df.filterMap key
  (sortBy strAsc ks.dedup).map (fun k => (k, ks.count k))

/-- A rendered chart: the chart kind passed to the plotting library
together with the tidy data the figure is built from. -/
structure Fig (α : Type) where
  kind : String
  data : List α
  deriving DecidableEq

/-- `chart_peminjaman_per_status` (`charts.py` lines 215-241): group the
filtered loans by `status_peminjaman` and count; returns `(None, per_status)`
when the aggregate is empty, else the figure and the aggregate. -/
def chart_peminjaman_per_status (df : List Row) :
    Option (Fig (String × Nat)) × List (String × Nat) :=
  let per_status := countByKey (fun r => some r.status_peminjaman) df
  if per_status.isEmpty then (none, per_status)
  else (some ⟨"bar", per_status⟩, per_status)

/-- `chart_peminjaman_per_fakultas` (`charts.py` lines 101-124): group by
`nama_fakultas`, count, sort descending by count; no empty-input guard. -/
def chart_peminjaman_per_fakultas (df : List Row) :
    Fig (String × Nat) × List (String × Nat) :=
  let per_fak := sortBy cntDesc (countByKey (fun r => r.nama_fakultas) df)
  (⟨"bar", per_fak⟩, per_fak)

/-- `chart_peminjaman_per_kategori` (`charts.py` lines 127-156): group by
`kategori_buku`, count, sort descending; `(None, per_kat)` when empty. -/
def chart_peminjaman_per_kategori (df : List Row) :
    Option (Fig (String × Nat)) × List (String × Nat) :=
  let per_kat := sortBy cntDesc (countByKey (fun r => some r.kategori_buku) df)
  if per_kat.isEmpty then (none, per_kat)
  else (some ⟨"donut", per_kat⟩, per_kat)

/-- `chart_top5_judul` (`charts.py` lines 244-273): group by `judul`,
count, sort descending by count, keep the first five rows; `(None, ...)`
when the truncated aggregate is empty. -/
def chart_top5_judul (df : List Row) :
    Option (Fig (String × Nat)) × List (String × Nat) :=
  let top_judul := (sortBy cntDesc (countByKey (fun r => some r.judul) df)).take 5
  if top_judul.isEmpty then (none, top_judul)
  else (some ⟨"hbar", top_judul⟩, top_judul)

/-- The `groupby("nama_fakultas")["durasi_peminjaman"].mean()` step of
`chart_durasi_rata_per_fakultas`, applied to rows whose duration is
already known to be non-null: arithmetic mean (exact, in `ℚ`) of the
duration per faculty, one output group per distinct non-null faculty. -/
def meanDurasiByFakultas (df : List Row) : List (String × ℚ) :=
  let ks := df.filterMap (fun r => r.nama_fakultas)
  (sortBy strAsc ks.dedup).map (fun k =>
    let grp := df.filter (fun r => r.nama_fakultas == some k)
    (k, (grp.map (fun r => ((r.durasi_peminjaman.getD 0 : Int) : ℚ))).sum / grp.length))

/-- Descending comparison on `(label, mean)` pairs:
`sort_values("rata_durasi", ascending=False)`. -/
def meanDesc (a b : String × ℚ) : Bool := decide (b.2 ≤ a.2)

/-- `chart_durasi_rata_per_fakultas` (`charts.py` lines 159-189): drop
rows with a null duration; if nothing is left return `(None, df)` with
the (empty) filtered row table, else group by faculty, average the
duration, sort descending by the mean. -/
def chart_durasi_rata_per_fakultas (df : List Row) :
    Option (Fig (String × ℚ)) × (List Row ⊕ List (String × ℚ)) :=
  let df2 := df.filter (fun r => r.durasi_peminjaman.isSome)
  if df2.isEmpty then (none, Sum.inl df2)
  else
    let durasi_fak := sortBy meanDesc (meanDurasiByFakultas df2)
    (some ⟨"bar", durasi_fak⟩, Sum.inr durasi_fak)

/-- Specification-side per-group mean: the exact average of
`durasi_peminjaman` over the rows of `df` in group `k` that have a
non-null duration. -/
def durasiMeanSpec (df : List Row) (k : String) : ℚ :=
  let grp := df.filter (fun r => r.nama_fakultas == some k && r.durasi_peminjaman.isSome)
  (grp.map (fun r => ((r.durasi_peminjaman.getD 0 : Int) : ℚ))).sum / grp.length

/-- `chart_hist_durasi` (`charts.py` lines 192-212): drop rows with a
null duration; `None` when nothing is left, else a histogram figure over
the remaining durations.  The function returns a single value, never a
`(figure, table)` pair. -/
def chart_hist_durasi (df : List Row) : Option (Fig Int) :=
  let df2 := df.filter (fun r => r.durasi_peminjaman.isSome)
  if df2.isEmpty then none
  else some ⟨"histogram", df2.filterMap (fun r => r.durasi_peminjaman)⟩

/-- Zero-padded two-digit rendering, as in `"2024-01"`. -/
def pad2 (n : Nat) : String := if n < 10 then "0" ++ toString n else toString n

/-- `.dt.to_period("M").astype(str)`: truncate a loan timestamp to its
containing calendar month, rendered `"YYYY-MM"`. -/
def monthKey (t : Timestamp) : String := toString t.y ++ "-" ++ pad2 t.m

/-- Ascending lexicographic comparison on `(bulan, status)` pairs, the
order in which pandas emits the two-level group keys. -/
def pairAsc (a b : String × String) : Bool :=
  if a.1 = b.1 then strAsc a.2 b.2 else strAsc a.1 b.1

/-- `df.groupby(["bulan", "status_peminjaman"]).size()`: one
`(pair, count)` row per pair observed in the data, keys ascending. -/
def pairCounts (ps : List (String × String)) : List ((String × String) × Nat) :=
  (sortBy pairAsc ps.dedup).map (fun p => (p, ps.count p))

/-- `chart_tren_bulanan_status` (`charts.py` lines 71-98) on the typed
loan table: add the month column, group by `(bulan, status_peminjaman)`,
count, and hand the long-form table to a stacked bar chart.  There is no
empty-input guard. -/
def chart_tren_bulanan_status (df : List Row) : Fig ((String × String) × Nat) :=
  ⟨"stacked_bar",
    pairCounts (df.map (fun r => (monthKey r.tgl_pinjam, r.status_peminjaman)))⟩

/-- First-encounter order of the non-null keys of a column: the order in
which the groups appear when scanning the table top to bottom. -/
def firstEncounterKeys (df : List Row) (key : Row → Option String) : List String :=
  (df.filterMap key).foldl (fun acc k => if k ∈ acc then acc else acc ++ [k]) []

/- ================================================================
   Untyped frames: column presence and `KeyError` behaviour
   ================================================================ -/

/-- A cell of an untyped data frame: a string, a timestamp, or null. -/
inductive Cell where
  | cs (v : String)
  | cts (t : Timestamp)
  | cnull
  deriving DecidableEq

/-- An untyped data frame: a column list plus one association list per
row.  This is the representation on which a missing column is
expressible, as in `charts.py` functions that probe `df.columns`. -/
structure Frame where
  cols : List String
  rows : List (List (String × Cell))

/-- Column access `df[c]` as pandas performs it: the cell values when the
column exists, otherwise nothing (pandas raises `KeyError`). -/
def Frame.getCol (f : Frame) (c : String) : Option (List Cell) :=
  if c ∈ f.cols then some (f.rows.map (fun r => (r.lookup c).getD Cell.cnull))
  else none

/-- The non-null group key a cell contributes to a `groupby`:
strings group by themselves, timestamps by their month, nulls are
dropped. -/
def Cell.key : Cell → Option String
  | Cell.cs v => some v
  | Cell.cts t => some (monthKey t)
  | Cell.cnull => none

/-- `groupby` over one untyped column: count per distinct non-null cell
key, keys ascending. -/
def cellCounts (cells : List Cell) : List (String × Nat) :=
  let ks := cells.filterMap Cell.key
  (sortBy strAsc ks.dedup).map (fun k => (k, ks.count k))

/-- `chart_tren_bulanan_status` (`charts.py` lines 71-98) on an untyped
frame.  The function body starts with `df["tgl_pinjam"]` and then groups
by `["bulan", "status_peminjaman"]`; each access to a column the frame
does not have raises a `KeyError`, modelled as `Except.error`.  There is
no empty-input or missing-column guard in the source. -/
def chart_tren_bulanan_status_f (f : Frame) :
    Except String (Fig ((String × String) × Nat)) :=
  match f.getCol "tgl_pinjam" with
  | none => Except.error "KeyError: tgl_pinjam"
  | some tgl =>
      match f.getCol "status_peminjaman" with
      | none => Except.error "KeyError: status_peminjaman"
      | some status =>
          let ps := (tgl.zip status).filterMap
            (fun p => match p.1.key, p.2.key with
              | some b, some s => some (b, s)
              | _, _ => none)
          Except.ok ⟨"stacked_bar", pairCounts ps⟩

/-- `chart_buku_per_status` (`charts.py` lines 382-419): probe for a
column named `status_buku`, then for one named `status`; when neither is
present return `None`, otherwise group that column, count, sort
descending by count, and return the figure (a single value, no table). -/
def chart_buku_per_status_f (f : Frame) : Option (Fig (String × Nat)) :=
  if "status_buku" ∈ f.cols then
    some ⟨"bar", sortBy cntDesc (cellCounts ((f.getCol "status_buku").getD []))⟩
  else if "status" ∈ f.cols then
    some ⟨"bar", sortBy cntDesc (cellCounts ((f.getCol "status").getD []))⟩
  else none

/- ================================================================
   Python dynamic values: what the Peminjaman page unpacks (C10)
   ================================================================ -/

/-- The shape of a Python value returned by a chart function, as far as
tuple unpacking is concerned: `None`, a figure object, or a
`(component, component)` tuple. -/
inductive PyVal where
  | pyNone
  | pyFig (kind : String)
  | pyPair (a b : PyVal)
  deriving DecidableEq

/-- The Python value `chart_hist_durasi(df)` evaluates to. -/
def chart_hist_durasi_py (df : List Row) : PyVal :=
  match chart_hist_durasi df with
  | none => PyVal.pyNone
  | some f => PyVal.pyFig f.kind

/-- Two-variable tuple unpacking `a, b = v`: succeeds exactly on a pair. -/
def unpack2 : PyVal → Option (PyVal × PyVal)
  | PyVal.pyPair a b => some (a, b)
  | _ => none

/- ================================================================
   CSV serialization (`df_filtered.to_csv(index=False)`) and parsing
   ================================================================ -/

/-- QUOTE_MINIMAL: a field is quoted iff it contains the delimiter, the
quote character, or a line-terminator character. -/
def needsQuote (s : List Char) : Bool :=
  s.any (fun c => c = ',' || c = '"' || c = '\n' || c = '\r')

/-- Double every quote character of a quoted field's content. -/
def dupQ : List Char → List Char
  | [] => []
  | c :: t => if c = '"' then '"' :: '"' :: dupQ t else c :: dupQ t

/-- Serialize one field with minimal quoting. -/
def escF (s : List Char) : List Char :=
  if needsQuote s then '"' :: (dupQ s ++ ['"']) else s

/-- Serialize one record: fields separated by commas. -/
def renderRecord : List (List Char) → List Char
  | [] => []
  | [f] => escF f
  | f :: fs => escF f ++ ',' :: renderRecord fs

/-- Serialize a whole CSV document: every record terminated by `'\n'`,
as `to_csv` does. -/
def renderCsvL (rs : List (List (List Char))) : List Char :=
  (rs.map (fun r => renderRecord r ++ ['\n'])).flatten

/-- CSV reader mode: outside quotes, inside quotes, or just past a quote
character while inside a quoted field. -/
inductive CMode where
  | norm
  | inq
  | afterq
  deriving DecidableEq

/-- CSV reader state: mode, current field (reversed), completed fields of
the current record (most recent first), completed records (most recent
first). -/
structure PState where
  mode : CMode
  cur : List Char
  flds : List (List Char)
  recs : List (List (List Char))

/-- One character of CSV reading. -/
def pstep (st : PState) (c : Char) : PState :=
  match st.mode with
  | CMode.inq =>
      if c = '"' then { st with mode := CMode.afterq }
      else { st with cur := c :: st.cur }
  | CMode.afterq =>
      if c = '"' then { st with mode := CMode.inq, cur := '"' :: st.cur }
      else if c = ',' then
        { st with mode := CMode.norm, cur := [], flds := st.cur.reverse :: st.flds }
      else if c = '\n' then
        { mode := CMode.norm, cur := [], flds := [],
          recs := (st.cur.reverse :: st.flds).reverse :: st.recs }
      else { st with mode := CMode.norm, cur := c :: st.cur }
  | CMode.norm =>
      if c = ',' then { st with cur := [], flds := st.cur.reverse :: st.flds }
      else if c = '\n' then
        { mode := CMode.norm, cur := [], flds := [],
          recs := (st.cur.reverse :: st.flds).reverse :: st.recs }
      else if c = '"' && st.cur.isEmpty then { st with mode := CMode.inq }
      else { st with cur := c :: st.cur }

/-- Parse a CSV document into records of fields. -/
def parseCsvL (cs : List Char) : List (List (List Char)) :=
  let st := cs.foldl pstep ⟨CMode.norm, [], [], []⟩
  if st.mode = CMode.norm ∧ st.cur = [] ∧ st.flds = [] then st.recs.reverse
  else ((st.cur.reverse :: st.flds).reverse :: st.recs).reverse

/-- String-level CSV serialization. -/
def renderCsv (rows : List (List String)) : String :=
  String.mk (renderCsvL (rows.map (fun r => r.map String.data)))

/-- String-level CSV parsing. -/
def parseCsv (s : String) : List (List String) :=
  (parseCsvL s.data).map (fun r => r.map String.mk)

/-- The column order of `load_peminjaman_detail`, which is the header
line `to_csv` writes. -/
def peminjamanHeader : List String :=
  ["id_peminjaman", "tgl_pinjam", "tgl_kembali", "durasi_peminjaman",
   "denda_buku", "status_peminjaman", "id_anggota", "no_identitas",
   "status_anggota", "nama_anggota", "email", "nama_prodi", "jenjang",
   "nama_fakultas", "id_buku", "judul", "kategori_buku", "tahun_terbit",
   "isbn", "status_buku", "eksemplar", "id_petugas", "nama_petugas"]

/-- Text form of a timestamp cell; the time-of-day component is written
as its second count (a stand-in for `HH:MM:SS`). -/
def tsText (t : Timestamp) : String :=
  toString t.y ++ "-" ++ pad2 t.m ++ "-" ++ pad2 t.d ++ " " ++ toString t.s

/-- Text form of a nullable timestamp cell: `NaT` serializes to the
empty field. -/
def optTsText : Option Timestamp → String
  | none => ""
  | some t => tsText t

/-- Text form of a nullable string cell: `NaN` serializes to the empty
field. -/
def optText : Option String → String
  | none => ""
  | some v => v

/-- Text form of the nullable integer duration, which pandas holds as a
float column (`5` prints as `5.0`); null serializes to the empty field. -/
def durText : Option Int → String
  | none => ""
  | some n => toString n ++ ".0"

/-- The cell texts of one loan row, in column order. -/
def rowToFields (r : Row) : List String :=
  [toString r.id_peminjaman, tsText r.tgl_pinjam, optTsText r.tgl_kembali,
   durText r.durasi_peminjaman, toString r.denda_buku, r.status_peminjaman,
   toString r.id_anggota, r.no_identitas, r.status_anggota, r.nama_anggota,
   r.email, optText r.nama_prodi, optText r.jenjang, optText r.nama_fakultas,
   toString r.id_buku, r.judul, r.kategori_buku, toString r.tahun_terbit,
   r.isbn, r.status_buku, toString r.eksemplar, toString r.id_petugas,
   r.nama_petugas]

/-- `df_filtered.to_csv(index=False)` (`app.py` line 357): header row plus
one comma-separated line per record, no index column. -/
def toCsvPeminjaman (df : List Row) : String :=
  renderCsv (peminjamanHeader :: df.map rowToFields)

/- ================================================================
   Sample data used by the concrete witnesses
   ================================================================ -/

/-- A loan row with placeholder values; witnesses override fields. -/
def row0 : Row where
  id_peminjaman := 1
  tgl_pinjam := ⟨2024, 1, 5, 0⟩
  tgl_kembali := none
  durasi_peminjaman := none
  denda_buku := 0
  status_peminjaman := "Sedang dipinjam"
  id_anggota := 1
  no_identitas := "A1"
  status_anggota := "Mahasiswa"
  nama_anggota := "Andi"
  email := "a@kampus.id"
  nama_prodi := some "Informatika"
  jenjang := some "S1"
  nama_fakultas := some "Teknik"
  id_buku := 10
  judul := "Basisdata"
  kategori_buku := "Teknologi"
  tahun_terbit := 2020
  isbn := "111"
  status_buku := "Tersedia"
  eksemplar := 2
  id_petugas := 1
  nama_petugas := "Sari"

/-- A completed loan: returned after five days. -/
def row1 : Row :=
  { row0 with
    id_peminjaman := 2
    tgl_pinjam := ⟨2024, 1, 20, 0⟩
    tgl_kembali := some ⟨2024, 1, 25, 0⟩
    durasi_peminjaman := some 5
    status_peminjaman := "Selesai"
    judul := "Jaringan, Edisi 2" }

/-- A February loan by a second member. -/
def row2 : Row :=
  { row0 with
    id_peminjaman := 3
    tgl_pinjam := ⟨2024, 2, 1, 0⟩
    id_anggota := 2
    judul := "Algoritma" }

/-- The all-wildcard configuration over a wide 2024 date range. -/
def cfgAll : FilterCfg :=
  ⟨⟨2024, 1, 1⟩, ⟨2024, 12, 31⟩, "(Semua)", "(Semua)", "(Semua)", "(Semua)", "(Semua)"⟩

/-- A loan of a title labelled `"B"`, encountered first. -/
def rowJB : Row := { row0 with id_peminjaman := 21, judul := "B" }

/-- A loan of a title labelled `"A"`, encountered second. -/
def rowJA : Row := { row0 with id_peminjaman := 22, judul := "A" }

/- ================================================================
   Order and sorting lemmas
   ================================================================ -/

theorem DateT.dle_refl (a : DateT) : DateT.dle a a := by
  unfold DateT.dle; omega

theorem DateT.dle_trans {a b c : DateT} (h1 : DateT.dle a b) (h2 : DateT.dle b c) :
    DateT.dle a c := by
  unfold DateT.dle at *; omega

theorem Timestamp.tle_total (a b : Timestamp) :
    Timestamp.tle a b ∨ Timestamp.tle b a := by
  unfold Timestamp.tle; omega

theorem Timestamp.tle_trans {a b c : Timestamp} (h1 : Timestamp.tle a b)
    (h2 : Timestamp.tle b c) : Timestamp.tle a c := by
  unfold Timestamp.tle at *; omega

/-- Day-granularity comparison is monotone in the full timestamp order. -/
theorem Timestamp.dateOf_mono {a b : Timestamp} (h : Timestamp.tle a b) :
    DateT.dle a.dateOf b.dateOf := by
  unfold Timestamp.tle at h
  unfold Timestamp.dateOf DateT.dle
  dsimp only
  omega

theorem mem_insortBy (le : α → α → Bool) (a x : α) (l : List α) :
    x ∈ insortBy le a l ↔ x = a ∨ x ∈ l := by
  induction l with
  | nil => simp [insortBy]
  | cons b t ih =>
      by_cases h : le a b
      · simp [insortBy, h]
      · simp [insortBy, h, ih]
        tauto

theorem perm_insortBy (le : α → α → Bool) (a : α) (l : List α) :
    List.Perm (insortBy le a l) (a :: l) := by
  induction l with
  | nil => simp [insortBy]
  | cons b t ih =>
      by_cases h : le a b
      · simp [insortBy, h]
      · simp only [insortBy, h, if_false]
        exact List.Perm.trans (ih.cons b) (List.Perm.swap a b t)

theorem perm_sortBy (le : α → α → Bool) (l : List α) : List.Perm (sortBy le l) l := by
  induction l with
  | nil => simp [sortBy]
  | cons a t ih =>
      exact List.Perm.trans (perm_insortBy le a (sortBy le t)) (ih.cons a)

theorem pairwise_insortBy (le : α → α → Bool)
    (htot : ∀ x y, le x y = true ∨ le y x = true)
    (htrans : ∀ x y z, le x y = true → le y z = true → le x z = true)
    (a : α) (l : List α)
    (hl : l.Pairwise (fun x y => le x y = true)) :
    (insortBy le a l).Pairwise (fun x y => le x y = true) := by
  induction l with
  | nil => simp [insortBy]
  | cons b t ih =>
      rcases List.pairwise_cons.mp hl with ⟨hb, ht⟩
      by_cases h : le a b
      · simp only [insortBy, h, if_true]
        refine List.pairwise_cons.mpr ⟨?_, hl⟩
        intro x hx
        rcases List.mem_cons.mp hx with rfl | hx
        · exact h
        · exact htrans a b x h (hb x hx)
      · simp only [insortBy, h, if_false]
        refine List.pairwise_cons.mpr ⟨?_, ih ht⟩
        intro x hx
        rcases (mem_insortBy le a x t).mp hx with rfl | hx
        · rcases htot b x with hbx | hxb
          · exact hbx
          · exact absurd hxb h
        · exact hb x hx

theorem pairwise_sortBy (le : α → α → Bool)
    (htot : ∀ x y, le x y = true ∨ le y x = true)
    (htrans : ∀ x y z, le x y = true → le y z = true → le x z = true)
    (l : List α) :
    (sortBy le l).Pairwise (fun x y => le x y = true) := by
  induction l with
  | nil => simp [sortBy]
  | cons a t ih => exact pairwise_insortBy le htot htrans a _ ih

/- ================================================================
   Filter Composer lemmas
   ================================================================ -/

theorem selFilter_eq_filter (sel : String) (get : Row → Option String) (l : List Row) :
    selFilter sel get l = l.filter (fun r => selMatch sel (get r)) := by
  by_cases h : sel = "(Semua)"
  · subst h
    simp [selFilter, selMatch]
  · simp only [selFilter, selMatch, if_pos h, ne_eq]
    refine (List.filter_congr ?_).symm
    intro r _
    have hb : (sel == "(Semua)") = false := beq_eq_false_iff_ne.mpr h
    simp [hb]

theorem df_filtered_eq_filter_sort (df : List Row) (cfg : FilterCfg) :
    df_filtered df cfg = sortBy tsDescLe (df.filter (rowPred cfg)) := by
  unfold df_filtered
  simp only [selFilter_eq_filter, List.filter_filter]
  congr 1
  apply List.filter_congr
  intro r _
  unfold rowPred
  cases inDateRange cfg r <;>
    cases selMatch cfg.fakultas_pilih r.nama_fakultas <;>
    cases selMatch cfg.prodi_pilih r.nama_prodi <;>
    cases selMatch cfg.status_anggota_pilih (some r.status_anggota) <;>
    cases selMatch cfg.status_peminjaman_pilih (some r.status_peminjaman) <;>
    cases selMatch cfg.kategori_pilih (some r.kategori_buku) <;> rfl

theorem df_filtered_perm (df : List Row) (cfg : FilterCfg) :
    List.Perm (df_filtered df cfg) (df.filter (rowPred cfg)) := by
  rw [df_filtered_eq_filter_sort]
  exact perm_sortBy _ _

theorem mem_df_filtered (df : List Row) (cfg : FilterCfg) (r : Row) :
    r ∈ df_filtered df cfg ↔ r ∈ df ∧ rowPred cfg r = true := by
  rw [(df_filtered_perm df cfg).mem_iff, List.mem_filter]

theorem tsDescLe_total (a b : Row) : tsDescLe a b = true ∨ tsDescLe b a = true := by
  unfold tsDescLe
  rcases Timestamp.tle_total b.tgl_pinjam a.tgl_pinjam with h | h
  · exact Or.inl (decide_eq_true h)
  · exact Or.inr (decide_eq_true h)

theorem tsDescLe_trans (a b c : Row) (h1 : tsDescLe a b = true)
    (h2 : tsDescLe b c = true) : tsDescLe a c = true := by
  unfold tsDescLe at *
  exact decide_eq_true (Timestamp.tle_trans (of_decide_eq_true h2) (of_decide_eq_true h1))

/-- C1: For every base loan table and filter configuration (inclusive
date range on the loan date plus per-column selections that are the
wildcard `"(Semua)"` or an exact value), the Filter Composer returns
exactly the rows whose loan date, at day granularity, lies in the range
and that match every non-wildcard selection (logical AND), and the result
is sorted by loan date descending regardless of the input order. -/
theorem C1_filter_composer_exact (df : List Row) (cfg : FilterCfg) :
    List.Perm (df_filtered df cfg) (df.filter (rowPred cfg)) ∧
    (df_filtered df cfg).Pairwise
      (fun a b => DateT.dle b.tgl_pinjam.dateOf a.tgl_pinjam.dateOf) := by
  refine ⟨df_filtered_perm df cfg, ?_⟩
  rw [df_filtered_eq_filter_sort]
  have h := pairwise_sortBy tsDescLe tsDescLe_total tsDescLe_trans
    (df.filter (rowPred cfg))
  refine h.imp ?_
  intro a b hab
  exact Timestamp.dateOf_mono (of_decide_eq_true hab)

/-- C7: A single-day selection is handled identically to the
degenerate range with equal endpoints, and date-range filtering is
monotone in range inclusion: the rows selected by `[d, d]` are a subset
of the rows selected by any enclosing range `[lo, hi]` with
`lo ≤ d ≤ hi` (in particular `[d-k, d+k]` for every `k ≥ 0`). -/
theorem C7_single_day_and_monotone (df : List Row) (cfg : FilterCfg)
    (d lo hi : DateT) (hlo : DateT.dle lo d) (hhi : DateT.dle d hi) :
    df_filtered df (withRange cfg (resolveRange (DateRangeInput.single d))) =
      df_filtered df (withRange cfg (resolveRange (DateRangeInput.range d d))) ∧
    ∀ r, r ∈ df_filtered df (withRange cfg (resolveRange (DateRangeInput.single d))) →
      r ∈ df_filtered df (withRange cfg (resolveRange (DateRangeInput.range lo hi))) := by
  constructor
  · rfl
  · intro r hr
    rw [mem_df_filtered] at hr ⊢
    refine ⟨hr.1, ?_⟩
    have hp := hr.2
    unfold rowPred inDateRange at hp ⊢
    simp only [withRange, resolveRange, Bool.and_eq_true, decide_eq_true_eq] at hp ⊢
    obtain ⟨⟨⟨⟨⟨⟨ha1, ha2⟩, hs1⟩, hs2⟩, hs3⟩, hs4⟩, hs5⟩ := hp
    exact ⟨⟨⟨⟨⟨⟨DateT.dle_trans hlo ha1, DateT.dle_trans ha2 hhi⟩, hs1⟩, hs2⟩,
      hs3⟩, hs4⟩, hs5⟩

/-- Concrete instantiation of C7: January 5 as a single day, inside the
enclosing range January 1 to January 31. -/
theorem C7_witness :
    df_filtered [row0, row1, row2]
        (withRange cfgAll (resolveRange (DateRangeInput.single ⟨2024, 1, 5⟩))) =
      df_filtered [row0, row1, row2]
        (withRange cfgAll (resolveRange (DateRangeInput.range ⟨2024, 1, 5⟩ ⟨2024, 1, 5⟩))) ∧
    ∀ r, r ∈ df_filtered [row0, row1, row2]
        (withRange cfgAll (resolveRange (DateRangeInput.single ⟨2024, 1, 5⟩))) →
      r ∈ df_filtered [row0, row1, row2]
        (withRange cfgAll (resolveRange (DateRangeInput.range ⟨2024, 1, 1⟩ ⟨2024, 1, 31⟩))) :=
  C7_single_day_and_monotone [row0, row1, row2] cfgAll ⟨2024, 1, 5⟩ ⟨2024, 1, 1⟩ ⟨2024, 1, 31⟩
    (by decide) (by decide)

/-- C10: `chart_hist_durasi` returns a single value — a figure, or
`None` exactly when no row has a non-null duration — never a
`(figure, table)` pair, so the Peminjaman page's two-variable unpacking
of its result can never bind a figure and a table. -/
theorem C10_hist_durasi_single_value (df : List Row) :
    unpack2 (chart_hist_durasi_py df) = none ∧
    (chart_hist_durasi df = none ↔
      df.filter (fun r => r.durasi_peminjaman.isSome) = []) := by
  constructor
  · unfold chart_hist_durasi_py
    cases chart_hist_durasi df <;> rfl
  · unfold chart_hist_durasi
    by_cases h : (df.filter (fun r => r.durasi_peminjaman.isSome)).isEmpty
    · simp only [h, if_true]
      simpa [List.isEmpty_iff] using h
    · simp only [h, if_false]
      constructor
      · intro hcontr
        cases hcontr
      · intro hnil
        exact absurd (by simp [List.isEmpty_iff, hnil]) h

/- ================================================================
   Counting lemmas
   ================================================================ -/

theorem sum_counts_cons (a : String) (t ds : List String) :
    (ds.map (fun k => (a :: t).count k)).sum =
      (ds.map (fun k => t.count k)).sum + ds.count a := by
  induction ds with
  | nil => simp
  | cons d ds ih =>
      simp only [List.map_cons, List.sum_cons]
      rw [ih, List.count_cons d a t, List.count_cons a d ds]
      by_cases h : a = d
      · subst h
        simp
        omega
      · have h1 : (a == d) = false := beq_eq_false_iff_ne.mpr h
        have h2 : (d == a) = false := beq_eq_false_iff_ne.mpr (Ne.symm h)
        simp [h1, h2]
        omega

theorem sum_map_count_dedup (l : List String) :
    (l.dedup.map (fun k => l.count k)).sum = l.length := by
  induction l with
  | nil => simp
  | cons a t ih =>
      by_cases h : a ∈ t
      · rw [List.dedup_cons_of_mem h, sum_counts_cons a t t.dedup, ih]
        have hc : t.dedup.count a = 1 := by
          rw [List.count_dedup]; simp [h]
        rw [hc]
        simp
      · rw [List.dedup_cons_of_not_mem h]
        simp only [List.map_cons, List.sum_cons]
        rw [sum_counts_cons a t t.dedup, ih]
        have hc : t.dedup.count a = 0 := by
          rw [List.count_dedup]; simp [h]
        have hca : (a :: t).count a = t.count a + 1 := by
          rw [List.count_cons a a t]
          simp
        have hct : t.count a = 0 := List.count_eq_zero.mpr h
        rw [hca, hc, hct]
        simp; omega

theorem countByKey_sum (key : Row → Option String) (df : List Row) :
    ((countByKey key df).map (fun p => p.2)).sum = (df.filterMap key).length := by
  unfold countByKey
  rw [List.map_map]
  have hperm : List.Perm
      ((sortBy strAsc (df.filterMap key).dedup).map (fun k => (df.filterMap key).count k))
      ((df.filterMap key).dedup.map (fun k => (df.filterMap key).count k)) :=
    (perm_sortBy strAsc (df.filterMap key).dedup).map _
  calc ((sortBy strAsc (df.filterMap key).dedup).map
          ((fun p : String × Nat => p.2) ∘ fun k => (k, (df.filterMap key).count k))).sum
      = ((sortBy strAsc (df.filterMap key).dedup).map
          (fun k => (df.filterMap key).count k)).sum := rfl
    _ = ((df.filterMap key).dedup.map (fun k => (df.filterMap key).count k)).sum :=
        hperm.sum_eq
    _ = (df.filterMap key).length := sum_map_count_dedup _

theorem length_filterMap_total (f : Row → String) (df : List Row) :
    (df.filterMap (fun r => some (f r))).length = df.length := by
  induction df with
  | nil => rfl
  | cons a t ih => simp [List.filterMap_cons, ih]

/-- C2: for every non-empty loan table, the per-status counts produced by
grouping on `status_peminjaman` sum exactly to the number of rows: every
row belongs to exactly one status group, so the counts partition the
input. -/
theorem C2_status_counts_partition (df : List Row) (_hne : df ≠ []) :
    (((chart_peminjaman_per_status df).2).map (fun p => p.2)).sum = df.length := by
  have h2 : (chart_peminjaman_per_status df).2 =
      countByKey (fun r => some r.status_peminjaman) df := by
    unfold chart_peminjaman_per_status
    by_cases h : (countByKey (fun r => some r.status_peminjaman) df).isEmpty <;>
      simp [h]
  rw [h2, countByKey_sum]
  exact length_filterMap_total (fun r => r.status_peminjaman) df

/-- Concrete instantiation of C2: two loans, one outstanding and one
completed, give status counts `1 + 1 = 2`. -/
theorem C2_witness :
    [row0, row1] ≠ ([] : List Row) ∧
    (((chart_peminjaman_per_status [row0, row1]).2).map (fun p => p.2)).sum = 2 :=
  ⟨by decide, C2_status_counts_partition [row0, row1] (by decide)⟩

/- ================================================================
   Top-5 lemmas
   ================================================================ -/

theorem cntDesc_total (a b : String × Nat) : cntDesc a b = true ∨ cntDesc b a = true := by
  unfold cntDesc
  rcases Nat.le_total b.2 a.2 with h | h
  · exact Or.inl (decide_eq_true h)
  · exact Or.inr (decide_eq_true h)

theorem cntDesc_trans (a b c : String × Nat) (h1 : cntDesc a b = true)
    (h2 : cntDesc b c = true) : cntDesc a c = true := by
  unfold cntDesc at *
  exact decide_eq_true (Nat.le_trans (of_decide_eq_true h2) (of_decide_eq_true h1))

theorem chart_top5_snd (df : List Row) :
    (chart_top5_judul df).2 =
      (sortBy cntDesc (countByKey (fun r => some r.judul) df)).take 5 := by
  unfold chart_top5_judul
  by_cases h : ((sortBy cntDesc (countByKey (fun r => some r.judul) df)).take 5).isEmpty <;>
    simp [h]

/-- C5: the top-5 aggregate never has more than five rows, is sorted
descending by count, and when the input has at most five distinct titles
it is exactly the per-title count table (one row per group, no padding). -/
theorem C5_top5_truncation (df : List Row) :
    ((chart_top5_judul df).2).length ≤ 5 ∧
    ((chart_top5_judul df).2).Pairwise (fun p q => q.2 ≤ p.2) ∧
    ((countByKey (fun r => some r.judul) df).length ≤ 5 →
      List.Perm ((chart_top5_judul df).2) (countByKey (fun r => some r.judul) df)) := by
  rw [chart_top5_snd]
  refine ⟨?_, ?_, ?_⟩
  · simp [List.length_take]
  · have hp := pairwise_sortBy cntDesc cntDesc_total cntDesc_trans
      (countByKey (fun r => some r.judul) df)
    have hp2 := hp.sublist (List.take_sublist 5 _)
    exact hp2.imp (fun h => of_decide_eq_true h)
  · intro h
    have hlen : (sortBy cntDesc (countByKey (fun r => some r.judul) df)).length ≤ 5 := by
      rw [(perm_sortBy cntDesc _).length_eq]
      exact h
    rw [List.take_of_length_le hlen]
    exact perm_sortBy cntDesc _

/-- Concrete instantiation of C5 (the spec's scenario): three distinct
titles each borrowed once yield exactly three rows, not padded to five. -/
theorem C5_witness :
    ((chart_top5_judul [row0, row1, row2]).2).length ≤ 5 ∧
    ((chart_top5_judul [row0, row1, row2]).2).Pairwise (fun p q => q.2 ≤ p.2) ∧
    List.Perm ((chart_top5_judul [row0, row1, row2]).2)
      (countByKey (fun r => some r.judul) [row0, row1, row2]) ∧
    ((chart_top5_judul [row0, row1, row2]).2).length = 3 :=
  ⟨(C5_top5_truncation [row0, row1, row2]).1,
   (C5_top5_truncation [row0, row1, row2]).2.1,
   (C5_top5_truncation [row0, row1, row2]).2.2 (by decide),
   by decide⟩

/- ================================================================
   Month-by-status cross counts (C6)
   ================================================================ -/

theorem pairCounts_map_fst (ps : List (String × String)) :
    (pairCounts ps).map (fun e => e.1) = sortBy pairAsc ps.dedup := by
  unfold pairCounts
  rw [List.map_map]
  exact List.map_id _

theorem pairCounts_nodup_keys (ps : List (String × String)) :
    ((pairCounts ps).map (fun e => e.1)).Nodup := by
  rw [pairCounts_map_fst]
  exact ((perm_sortBy pairAsc ps.dedup).nodup_iff).mpr (List.nodup_dedup ps)

theorem pairCounts_mem_keys (ps : List (String × String)) (p : String × String) :
    p ∈ (pairCounts ps).map (fun e => e.1) ↔ p ∈ ps := by
  rw [pairCounts_map_fst, (perm_sortBy pairAsc ps.dedup).mem_iff]
  exact List.mem_dedup

theorem pairCounts_counts (ps : List (String × String)) (e : (String × String) × Nat)
    (he : e ∈ pairCounts ps) : e.2 = ps.count e.1 ∧ 0 < e.2 := by
  unfold pairCounts at he
  rcases List.mem_map.mp he with ⟨p, hp, rfl⟩
  have hmem : p ∈ ps := by
    rw [← List.mem_dedup, ← (perm_sortBy pairAsc ps.dedup).mem_iff]
    exact hp
  exact ⟨rfl, List.count_pos_iff.mpr hmem⟩

/-- C6: the month-by-status trend aggregate truncates each loan date to
its calendar month, and its rows are exactly the `(month, status)` pairs
observed in the data — one row per observed pair, carrying its exact
count (hence positive); unobserved combinations are omitted, never
zero-filled. -/
theorem C6_month_status_crosstab (df : List Row) :
    (((chart_tren_bulanan_status df).data).map (fun e => e.1)).Nodup ∧
    (∀ b s, (b, s) ∈ ((chart_tren_bulanan_status df).data).map (fun e => e.1) ↔
      ∃ r ∈ df, monthKey r.tgl_pinjam = b ∧ r.status_peminjaman = s) ∧
    (∀ e ∈ (chart_tren_bulanan_status df).data,
      e.2 = (df.map (fun r => (monthKey r.tgl_pinjam, r.status_peminjaman))).count e.1 ∧
      0 < e.2) := by
  have hdata : (chart_tren_bulanan_status df).data =
      pairCounts (df.map (fun r => (monthKey r.tgl_pinjam, r.status_peminjaman))) := rfl
  rw [hdata]
  refine ⟨pairCounts_nodup_keys _, ?_, ?_⟩
  · intro b s
    rw [pairCounts_mem_keys]
    rw [List.mem_map]
    constructor
    · rintro ⟨r, hr, hb⟩
      exact ⟨r, hr, by simpa [Prod.ext_iff] using hb⟩
    · rintro ⟨r, hr, hb, hs⟩
      exact ⟨r, hr, by simp [hb, hs]⟩
  · intro e he
    exact pairCounts_counts _ e he

/-- Concrete instantiation of C6 (the spec's scenario): two January loans
with different statuses and one February loan produce exactly the three
observed pairs, each with count one, and no zero-filled combinations. -/
theorem C6_witness :
    (((chart_tren_bulanan_status [row0, row1, row2]).data).map (fun e => e.1)).Nodup ∧
    (("2024-01", "Selesai") ∈
      ((chart_tren_bulanan_status [row0, row1, row2]).data).map (fun e => e.1) ↔
      ∃ r ∈ [row0, row1, row2],
        monthKey r.tgl_pinjam = "2024-01" ∧ r.status_peminjaman = "Selesai") ∧
    (∀ e ∈ (chart_tren_bulanan_status [row0, row1, row2]).data,
      e.2 = ([row0, row1, row2].map
        (fun r => (monthKey r.tgl_pinjam, r.status_peminjaman))).count e.1 ∧ 0 < e.2) ∧
    ((chart_tren_bulanan_status [row0, row1, row2]).data).map (fun e => e.1) =
      [("2024-01", "Sedang dipinjam"), ("2024-01", "Selesai"), ("2024-02", "Sedang dipinjam")] :=
  ⟨(C6_month_status_crosstab [row0, row1, row2]).1,
   (C6_month_status_crosstab [row0, row1, row2]).2.1 "2024-01" "Selesai",
   (C6_month_status_crosstab [row0, row1, row2]).2.2,
   by decide⟩

/- ================================================================
   Mean duration per faculty (C4)
   ================================================================ -/

/-- C4: the mean-duration-per-faculty aggregate is computed only over
rows whose duration is non-null, and a faculty all of whose rows have a
null duration never appears in the output: every output group has at
least one non-null observation, and its value is the exact mean of the
non-null durations of that group. -/
theorem C4_mean_excludes_null_groups (df : List Row) (tbl : List (String × ℚ))
    (h : (chart_durasi_rata_per_fakultas df).2 = Sum.inr tbl) :
    ∀ p ∈ tbl,
      (∃ r ∈ df, r.nama_fakultas = some p.1 ∧ r.durasi_peminjaman.isSome) ∧
      p.2 = durasiMeanSpec df p.1 := by
  cases hemp : (df.filter (fun r => r.durasi_peminjaman.isSome)).isEmpty with
  | true =>
      simp [chart_durasi_rata_per_fakultas, hemp] at h
  | false =>
      simp only [chart_durasi_rata_per_fakultas, hemp, Bool.false_eq_true, if_false,
        Sum.inr.injEq] at h
      subst h
      intro p hp
      have hp2 : p ∈ meanDurasiByFakultas (df.filter (fun r => r.durasi_peminjaman.isSome)) :=
        (perm_sortBy meanDesc _).mem_iff.mp hp
      unfold meanDurasiByFakultas at hp2
      rcases List.mem_map.mp hp2 with ⟨k, hk, rfl⟩
      have hk2 : k ∈ (df.filter (fun r => r.durasi_peminjaman.isSome)).filterMap
          (fun r => r.nama_fakultas) :=
        List.mem_dedup.mp ((perm_sortBy strAsc _).mem_iff.mp hk)
      rcases List.mem_filterMap.mp hk2 with ⟨r, hr, hfk⟩
      have hrdf := List.mem_filter.mp hr
      constructor
      · exact ⟨r, hrdf.1, hfk, by simpa using hrdf.2⟩
      · show _ = durasiMeanSpec df k
        unfold durasiMeanSpec
        have hgrp : (df.filter (fun r => r.durasi_peminjaman.isSome)).filter
              (fun r => r.nama_fakultas == some k)
            = df.filter (fun r => r.nama_fakultas == some k && r.durasi_peminjaman.isSome) := by
          rw [List.filter_filter]
        rw [hgrp]

/-- Concrete instantiation of C4 (the spec's scenario): the sole
completed loan has duration 5, so its faculty's mean is exactly 5 and is
computed over the single non-null row. -/
theorem C4_witness :
    (chart_durasi_rata_per_fakultas [row1]).2 = Sum.inr [("Teknik", (5 : ℚ))] ∧
    ∀ p ∈ [("Teknik", (5 : ℚ))],
      (∃ r ∈ [row1], r.nama_fakultas = some p.1 ∧ r.durasi_peminjaman.isSome) ∧
      p.2 = durasiMeanSpec [row1] p.1 := by
  have h : (chart_durasi_rata_per_fakultas [row1]).2 = Sum.inr [("Teknik", (5 : ℚ))] := by
    norm_num [chart_durasi_rata_per_fakultas, meanDurasiByFakultas, sortBy, insortBy,
      row1, row0, List.filter, List.filterMap, List.dedup]
  exact ⟨h, C4_mean_excludes_null_groups [row1] _ h⟩

/- ================================================================
   String order lemmas and ranking stability (C8)
   ================================================================ -/

theorem charsLe_total (a : List Char) : ∀ b, charsLe a b = true ∨ charsLe b a = true := by
  induction a with
  | nil => intro b; left; rfl
  | cons x xs ih =>
      intro b
      cases b with
      | nil => right; rfl
      | cons y ys =>
          rcases lt_trichotomy x y with h | h | h
          · left; simp [charsLe, h]
          · subst h
            rcases ih ys with h2 | h2
            · left; simp [charsLe, h2]
            · right; simp [charsLe, h2]
          · right; simp [charsLe, h]

theorem charsLe_trans (a : List Char) :
    ∀ b c, charsLe a b = true → charsLe b c = true → charsLe a c = true := by
  induction a with
  | nil => intro b c _ _; rfl
  | cons x xs ih =>
      intro b c h1 h2
      cases b with
      | nil => simp [charsLe] at h1
      | cons y ys =>
          cases c with
          | nil => simp [charsLe] at h2
          | cons z zs =>
              by_cases hxy : x < y
              · by_cases hyz : y < z
                · simp [charsLe, lt_trans hxy hyz]
                · by_cases hyz2 : y = z
                  · subst hyz2; simp [charsLe, hxy]
                  · simp [charsLe, hyz, hyz2] at h2
              · by_cases hxy2 : x = y
                · subst hxy2
                  by_cases hyz : x < z
                  · simp [charsLe, hyz]
                  · by_cases hyz2 : x = z
                    · subst hyz2
                      simp only [charsLe, lt_self_iff_false, if_false, if_pos rfl] at h1 h2 ⊢
                      exact ih ys zs h1 h2
                    · simp [charsLe, hyz, hyz2] at h2
                · simp [charsLe, hxy, hxy2] at h1

theorem strAsc_total (a b : String) : strAsc a b = true ∨ strAsc b a = true :=
  charsLe_total a.data b.data

theorem strAsc_trans (a b c : String) (h1 : strAsc a b = true) (h2 : strAsc b c = true) :
    strAsc a c = true :=
  charsLe_trans a.data b.data c.data h1 h2

/-- The grouped table is emitted with strictly ascending labels: pandas
sorts the group keys and they are distinct. -/
theorem countByKey_keys_strict (key : Row → Option String) (df : List Row) :
    (countByKey key df).Pairwise (fun p q => strLt p.1 q.1 = true) := by
  unfold countByKey
  rw [List.pairwise_map]
  have hsorted := pairwise_sortBy strAsc strAsc_total strAsc_trans (df.filterMap key).dedup
  have hnodup : (sortBy strAsc (df.filterMap key).dedup).Nodup :=
    ((perm_sortBy strAsc _).nodup_iff).mpr (List.nodup_dedup _)
  have hcomb := hsorted.and hnodup
  refine hcomb.imp ?_
  intro a b hab
  unfold strLt
  rw [hab.1, beq_eq_false_iff_ne.mpr hab.2]
  rfl

/-- C8 counterexample: with two titles `"B"` then `"A"` tied at one loan
each, the ranked top-5 aggregate lists them as `["A", "B"]`, not in
first-encountered order (`["B", "A"]`): the grouping step already emits
the groups sorted by label, so first-encounter order is not preserved,
contrary to the claim.  (At this two-element tied input the actual
pandas sort, insertion sort below numpy's small-array cutoff, produces
the same order as the model.) -/
theorem C8_counterexample :
    ((chart_top5_judul [rowJB, rowJA]).2).map (fun p => p.1) = ["A", "B"] ∧
    firstEncounterKeys [rowJB, rowJA] (fun r => some r.judul) = ["B", "A"] ∧
    ((chart_top5_judul [rowJB, rowJA]).2).map (fun p => p.1) ≠
      firstEncounterKeys [rowJB, rowJA] (fun r => some r.judul) := by
  decide

/-- C8 amended: in the ranked aggregations (per-faculty ranking and
top-5 by title) the tie-break is not first-encountered group order: the
grouping step emits the grouped table with strictly ascending labels
(pandas sorts the group keys), so the ranking sort works from
alphabetical order, not first-encounter order; the ranked outputs are
count-descending rearrangements of that grouped table, and the order
among equal counts is left unspecified (the pandas default quicksort is
not stable), so no tie-break may be relied on. -/
theorem C8_amended_no_first_encounter_tiebreak (df : List Row) :
    (countByKey (fun r => r.nama_fakultas) df).Pairwise
      (fun p q => strLt p.1 q.1 = true) ∧
    (countByKey (fun r => some r.judul) df).Pairwise
      (fun p q => strLt p.1 q.1 = true) ∧
    List.Perm ((chart_peminjaman_per_fakultas df).2)
      (countByKey (fun r => r.nama_fakultas) df) ∧
    ((chart_peminjaman_per_fakultas df).2).Pairwise (fun p q => q.2 ≤ p.2) ∧
    (∀ p ∈ (chart_top5_judul df).2, p ∈ countByKey (fun r => some r.judul) df) ∧
    ((chart_top5_judul df).2).Pairwise (fun p q => q.2 ≤ p.2) := by
  refine ⟨countByKey_keys_strict _ df, countByKey_keys_strict _ df,
    perm_sortBy cntDesc _, ?_, ?_, ?_⟩
  · have hp := pairwise_sortBy cntDesc cntDesc_total cntDesc_trans
      (countByKey (fun r => r.nama_fakultas) df)
    exact hp.imp (fun h => of_decide_eq_true h)
  · intro p hp
    rw [chart_top5_snd] at hp
    have hp2 : p ∈ sortBy cntDesc (countByKey (fun r => some r.judul) df) :=
      (List.take_sublist 5 _).subset hp
    exact (perm_sortBy cntDesc _).mem_iff.mp hp2
  · rw [chart_top5_snd]
    have hp := pairwise_sortBy cntDesc cntDesc_total cntDesc_trans
      (countByKey (fun r => some r.judul) df)
    exact (hp.sublist (List.take_sublist 5 _)).imp (fun h => of_decide_eq_true h)

/-- Concrete instantiation of C8 (amended): for the two tied titles the
grouped table has strictly ascending labels, and the tied entry
`("A", 1)` of the top-5 output is drawn from that grouped table. -/
theorem C8_witness :
    (countByKey (fun r => some r.judul) [rowJB, rowJA]).Pairwise
      (fun p q => strLt p.1 q.1 = true) ∧
    ("A", 1) ∈ countByKey (fun r => some r.judul) [rowJB, rowJA] :=
  ⟨(C8_amended_no_first_encounter_tiebreak [rowJB, rowJA]).2.1,
   (C8_amended_no_first_encounter_tiebreak [rowJB, rowJA]).2.2.2.2.1
     ("A", 1) (by decide)⟩

/- ================================================================
   Empty and missing-column behaviour of the chart layer (C3)
   ================================================================ -/

/-- C3 counterexample: `chart_tren_bulanan_status` applied to a frame
without the loan-date column does not return an empty/sentinel result —
it raises a `KeyError`, so the "every operation returns a sentinel,
never an exception" claim fails. -/
theorem C3_counterexample :
    chart_tren_bulanan_status_f ⟨[], []⟩ = Except.error "KeyError: tgl_pinjam" := by
  rfl

/-- C3 amended: some chart operations do return sentinels —
`chart_buku_per_status` returns `None` when neither status column is
present, and the per-status, per-category, top-5, mean-duration and
histogram charts return a `None` sentinel on empty input — but not every
operation does: `chart_tren_bulanan_status` raises a `KeyError` whenever
the loan-date column is absent. -/
theorem C3_amended_partial_sentinels :
    (∀ f : Frame, "status_buku" ∉ f.cols → "status" ∉ f.cols →
      chart_buku_per_status_f f = none) ∧
    (∀ f : Frame, "tgl_pinjam" ∉ f.cols →
      chart_tren_bulanan_status_f f = Except.error "KeyError: tgl_pinjam") ∧
    chart_peminjaman_per_status [] = (none, []) ∧
    chart_peminjaman_per_kategori [] = (none, []) ∧
    chart_top5_judul [] = (none, []) ∧
    chart_durasi_rata_per_fakultas [] = (none, Sum.inl []) ∧
    chart_hist_durasi [] = none := by
  refine ⟨?_, ?_, rfl, rfl, rfl, rfl, rfl⟩
  · intro f h1 h2
    unfold chart_buku_per_status_f
    rw [if_neg h1, if_neg h2]
  · intro f h1
    unfold chart_tren_bulanan_status_f Frame.getCol
    rw [if_neg h1]

/-- Concrete instantiation of C3 (amended): a frame with only a `judul`
column gets the `None` sentinel from `chart_buku_per_status` and the
`KeyError` from `chart_tren_bulanan_status`. -/
theorem C3_witness :
    chart_buku_per_status_f ⟨["judul"], []⟩ = none ∧
    chart_tren_bulanan_status_f ⟨["judul"], []⟩ = Except.error "KeyError: tgl_pinjam" :=
  ⟨C3_amended_partial_sentinels.1 ⟨["judul"], []⟩ (by decide) (by decide),
   C3_amended_partial_sentinels.2.1 ⟨["judul"], []⟩ (by decide)⟩

/- ================================================================
   CSV round-trip (C9)
   ================================================================ -/

theorem pstep_norm (cur : List Char) (flds : List (List Char))
    (recs : List (List (List Char))) (c : Char) :
    pstep ⟨CMode.norm, cur, flds, recs⟩ c =
      if c = ',' then ⟨CMode.norm, [], cur.reverse :: flds, recs⟩
      else if c = '\n' then ⟨CMode.norm, [], [], (cur.reverse :: flds).reverse :: recs⟩
      else if c = '"' && cur.isEmpty then ⟨CMode.inq, cur, flds, recs⟩
      else ⟨CMode.norm, c :: cur, flds, recs⟩ := rfl

theorem pstep_inq (cur : List Char) (flds : List (List Char))
    (recs : List (List (List Char))) (c : Char) :
    pstep ⟨CMode.inq, cur, flds, recs⟩ c =
      if c = '"' then ⟨CMode.afterq, cur, flds, recs⟩
      else ⟨CMode.inq, c :: cur, flds, recs⟩ := rfl

theorem pstep_afterq (cur : List Char) (flds : List (List Char))
    (recs : List (List (List Char))) (c : Char) :
    pstep ⟨CMode.afterq, cur, flds, recs⟩ c =
      if c = '"' then ⟨CMode.inq, '"' :: cur, flds, recs⟩
      else if c = ',' then ⟨CMode.norm, [], cur.reverse :: flds, recs⟩
      else if c = '\n' then ⟨CMode.norm, [], [], (cur.reverse :: flds).reverse :: recs⟩
      else ⟨CMode.norm, c :: cur, flds, recs⟩ := rfl

theorem not_special_of_needsQuote_false {f : List Char} (h : needsQuote f = false) :
    ∀ c ∈ f, c ≠ ',' ∧ c ≠ '"' ∧ c ≠ '\n' := by
  intro c hc
  unfold needsQuote at h
  rw [List.any_eq_false] at h
  have h2 := h c hc
  simp only [Bool.or_eq_true, decide_eq_true_eq, not_or] at h2
  exact ⟨h2.1.1.1, h2.1.1.2, h2.1.2⟩

theorem foldl_plain (s : List Char) (hs : ∀ c ∈ s, c ≠ ',' ∧ c ≠ '"' ∧ c ≠ '\n') :
    ∀ (cur : List Char) (flds : List (List Char)) (recs : List (List (List Char))),
    List.foldl pstep ⟨CMode.norm, cur, flds, recs⟩ s =
      ⟨CMode.norm, s.reverse ++ cur, flds, recs⟩ := by
  induction s with
  | nil => intro cur flds recs; simp
  | cons c t ih =>
      intro cur flds recs
      obtain ⟨h1, h2, h3⟩ := hs c (List.mem_cons_self c t)
      rw [List.foldl_cons, pstep_norm, if_neg h1, if_neg h3,
        if_neg (by simp [h2]), ih (fun x hx => hs x (List.mem_cons_of_mem c hx))]
      simp

theorem foldl_dupQ (s : List Char) :
    ∀ (cur : List Char) (flds : List (List Char)) (recs : List (List (List Char))),
    List.foldl pstep ⟨CMode.inq, cur, flds, recs⟩ (dupQ s) =
      ⟨CMode.inq, s.reverse ++ cur, flds, recs⟩ := by
  induction s with
  | nil => intro cur flds recs; simp [dupQ]
  | cons c t ih =>
      intro cur flds recs
      by_cases h : c = '"'
      · subst h
        rw [show dupQ ('"' :: t) = '"' :: '"' :: dupQ t from rfl]
        rw [List.foldl_cons, List.foldl_cons, pstep_inq, if_pos rfl, pstep_afterq,
          if_pos rfl, ih]
        simp
      · simp only [dupQ, h, if_false]
        rw [List.foldl_cons, pstep_inq, if_neg h, ih]
        simp

theorem foldl_escF_comma (f : List Char) (rest : List Char) (flds : List (List Char))
    (recs : List (List (List Char))) :
    List.foldl pstep ⟨CMode.norm, [], flds, recs⟩ (escF f ++ ',' :: rest) =
      List.foldl pstep ⟨CMode.norm, [], f :: flds, recs⟩ rest := by
  unfold escF
  cases hq : needsQuote f with
  | false =>
      simp only [Bool.false_eq_true, if_false]
      rw [List.foldl_append, foldl_plain f (not_special_of_needsQuote_false hq),
        List.foldl_cons, pstep_norm, if_pos rfl]
      simp
  | true =>
      simp only [if_true]
      rw [List.cons_append, List.foldl_cons, pstep_norm, if_neg (by decide),
        if_neg (by decide), if_pos (by decide), List.append_assoc,
        List.singleton_append, List.foldl_append, foldl_dupQ, List.foldl_cons,
        pstep_inq, if_pos rfl, List.foldl_cons, pstep_afterq, if_neg (by decide),
        if_pos rfl]
      simp

theorem foldl_escF_newline (f : List Char) (rest : List Char) (flds : List (List Char))
    (recs : List (List (List Char))) :
    List.foldl pstep ⟨CMode.norm, [], flds, recs⟩ (escF f ++ '\n' :: rest) =
      List.foldl pstep ⟨CMode.norm, [], [], (f :: flds).reverse :: recs⟩ rest := by
  unfold escF
  cases hq : needsQuote f with
  | false =>
      simp only [Bool.false_eq_true, if_false]
      rw [List.foldl_append, foldl_plain f (not_special_of_needsQuote_false hq),
        List.foldl_cons, pstep_norm, if_neg (by decide), if_pos rfl]
      simp
  | true =>
      simp only [if_true]
      rw [List.cons_append, List.foldl_cons, pstep_norm, if_neg (by decide),
        if_neg (by decide), if_pos (by decide), List.append_assoc,
        List.singleton_append, List.foldl_append, foldl_dupQ, List.foldl_cons,
        pstep_inq, if_pos rfl, List.foldl_cons, pstep_afterq, if_neg (by decide),
        if_neg (by decide), if_pos rfl]
      simp

theorem renderRecord_cons2 (f g : List Char) (fs : List (List Char)) :
    renderRecord (f :: g :: fs) = escF f ++ ',' :: renderRecord (g :: fs) := rfl

theorem foldl_record (fs : List (List Char)) (hne : fs ≠ []) :
    ∀ (flds : List (List Char)) (recs : List (List (List Char))) (rest : List Char),
    List.foldl pstep ⟨CMode.norm, [], flds, recs⟩ (renderRecord fs ++ '\n' :: rest) =
      List.foldl pstep ⟨CMode.norm, [], [], (flds.reverse ++ fs) :: recs⟩ rest := by
  induction fs with
  | nil => cases hne rfl
  | cons f fs ih =>
      intro flds recs rest
      cases fs with
      | nil =>
          rw [show renderRecord [f] = escF f from rfl, foldl_escF_newline]
          simp
      | cons g gs =>
          rw [renderRecord_cons2]
          rw [List.append_assoc, List.cons_append]
          rw [foldl_escF_comma]
          rw [ih (by simp) (f :: flds) recs rest]
          simp

theorem foldl_renderCsv (rs : List (List (List Char))) (hne : ∀ r ∈ rs, r ≠ []) :
    ∀ recs : List (List (List Char)),
    List.foldl pstep ⟨CMode.norm, [], [], recs⟩ (renderCsvL rs) =
      ⟨CMode.norm, [], [], rs.reverse ++ recs⟩ := by
  induction rs with
  | nil => intro recs; simp [renderCsvL]
  | cons r rs ih =>
      intro recs
      rw [show renderCsvL (r :: rs) = renderRecord r ++ '\n' :: renderCsvL rs from by
        simp [renderCsvL]]
      rw [foldl_record r (hne r (List.mem_cons_self r rs)) [] recs (renderCsvL rs)]
      simp only [List.reverse_nil, List.nil_append]
      rw [ih (fun x hx => hne x (List.mem_cons_of_mem r hx)) (r :: recs)]
      simp

/-- The CSV writer and reader are mutually inverse on tables whose
records are non-empty (every `to_csv` output has at least one column). -/
theorem parseCsvL_renderCsvL (rs : List (List (List Char))) (hne : ∀ r ∈ rs, r ≠ []) :
    parseCsvL (renderCsvL rs) = rs := by
  unfold parseCsvL
  rw [foldl_renderCsv rs hne []]
  simp

theorem parseCsv_renderCsv (rows : List (List String)) (hne : ∀ r ∈ rows, r ≠ []) :
    parseCsv (renderCsv rows) = rows := by
  unfold parseCsv renderCsv
  rw [show (String.mk (renderCsvL (rows.map (fun r => r.map String.data)))).data
      = renderCsvL (rows.map (fun r => r.map String.data)) from rfl]
  rw [parseCsvL_renderCsvL _ ?_]
  · rw [List.map_map]
    have hinner : ∀ r : List String, ((fun r : List (List Char) => r.map String.mk) ∘
        (fun r : List String => r.map String.data)) r = r := by
      intro r
      show (r.map String.data).map String.mk = r
      rw [List.map_map]
      rw [show (String.mk ∘ String.data) = id from funext (fun s => rfl)]
      exact List.map_id r
    rw [List.map_congr_left (fun a _ => hinner a)]
    exact List.map_id rows
  · intro r hr
    rcases List.mem_map.mp hr with ⟨x, hx, rfl⟩
    simpa using hne x hx

/-- C9: serializing the filtered loan table with `to_csv(index=False)`
(UTF-8 text, header row plus one comma-separated line per record, no
index column) and parsing the CSV back yields exactly the header —
the identical column set — followed by one parsed record per row whose
cells are the rendered cell texts of the original row (identical values
modulo type formatting); in particular the parsed document has the
identical row count. -/
theorem C9_csv_roundtrip (df : List Row) (cfg : FilterCfg) :
    parseCsv (toCsvPeminjaman (df_filtered df cfg)) =
      peminjamanHeader :: (df_filtered df cfg).map rowToFields ∧
    (parseCsv (toCsvPeminjaman (df_filtered df cfg))).length =
      (df_filtered df cfg).length + 1 := by
  have hne : ∀ r ∈ peminjamanHeader :: (df_filtered df cfg).map rowToFields, r ≠ [] := by
    intro r hr
    rcases List.mem_cons.mp hr with rfl | hr2
    · simp [peminjamanHeader]
    · rcases List.mem_map.mp hr2 with ⟨x, _, rfl⟩
      simp [rowToFields]
  have h := parseCsv_renderCsv (peminjamanHeader :: (df_filtered df cfg).map rowToFields) hne
  exact ⟨h, by rw [show toCsvPeminjaman (df_filtered df cfg) =
    renderCsv (peminjamanHeader :: (df_filtered df cfg).map rowToFields) from rfl, h]; simp⟩
